import Mathlib

/-!
Verification of the RL-based EV charging-station placement module
(`rl_optimization/station_placement_rl.py`).

Modelling conventions:

* Python floats are modelled as exact rationals (`ℚ`).  Every numeric
  constant in the module is a decimal literal, so this is faithful up to
  floating-point rounding, which none of the verified properties depend on.
* The Haversine distance `_haversine_distance` is transcendental
  (sin/cos/atan2), hence not exactly computable; every definition that
  calls it is parametrised by an abstract distance function
  `d : ℚ → ℚ → ℚ → ℚ → ℚ` standing for `_haversine_distance`.  All
  theorems are proved for every such `d`, in particular for the real
  Haversine function.  Claims that compare two pieces of code calling the
  same `_haversine_distance` are insensitive to this abstraction.
* Python's `random.uniform` / `random.choice` draws are modelled by
  explicit input streams: a stream `rand : ℕ → ℚ × ℚ` of drawn
  (lat, lon) samples for placement materialisation, and index/threshold
  inputs for the bandits' random choices.
-/

/-- A candidate placement configuration ("arm"), as built by
`generate_candidate_placements`: a dict with keys id, lat, lon, type, name. -/
structure Arm where
  id : String
  lat : ℚ
  lon : ℚ
  type : String
  name : String
  deriving DecidableEq, Repr

/-- A demand center record from `StationPlacementRL.__init__`. -/
structure DemandCenter where
  lat : ℚ
  lon : ℚ
  weight : ℚ
  name : String
  deriving DecidableEq, Repr

/-- A station record as produced by `_create_placement_from_arm`. -/
structure Station where
  station_id : String
  lat : ℚ
  lon : ℚ
  name : String
  type : String
  deriving DecidableEq, Repr

/-- The city bounding box from `StationPlacementRL.__init__`. -/
structure CityBounds where
  min_lat : ℚ
  max_lat : ℚ
  min_lon : ℚ
  max_lon : ℚ
  deriving DecidableEq, Repr

/-- The configuration state of a `StationPlacementRL` instance: the fields
set in `__init__` that the placement / reward methods read. -/
structure PlacementConfig where
  num_stations : ℕ
  city_bounds : CityBounds
  demand_centers : List DemandCenter
  deriving DecidableEq, Repr

/-- The Bhubaneswar bounds hard-coded in `__init__`. -/
def bhubaneswarBounds : CityBounds :=
  { min_lat := 20.20, max_lat := 20.40, min_lon := 85.70, max_lon := 85.95 }

/-- The five demand centers hard-coded in `__init__`. -/
def defaultDemandCenters : List DemandCenter :=
  [ { lat := 20.2961, lon := 85.8245, weight := 1.0, name := "City Center" },
    { lat := 20.2644, lon := 85.8281, weight := 0.9, name := "KIIT Area" },
    { lat := 20.3100, lon := 85.8500, weight := 0.8, name := "Patia IT Hub" },
    { lat := 20.2500, lon := 85.8500, weight := 0.7, name := "Railway Station" },
    { lat := 20.3000, lon := 85.8800, weight := 0.6, name := "Airport Area" } ]

/-- The default configuration built by `StationPlacementRL(num_stations=25)`. -/
def defaultConfig : PlacementConfig :=
  { num_stations := 25
    city_bounds := bhubaneswarBounds
    demand_centers := defaultDemandCenters }

/-- Python's `f'ST{i+1:02d}'` station-id formatting (argument is the
0-based loop index `i`). -/
def stationIdStr (i : ℕ) : String :=
  if i + 1 < 10 then "ST0" ++ toString (i + 1) else "ST" ++ toString (i + 1)

/-- Ceiling of the square root on naturals: `int(np.ceil(np.sqrt(n)))`. -/
def ceilSqrt (n : ℕ) : ℕ :=
  if Nat.sqrt n * Nat.sqrt n = n then Nat.sqrt n else Nat.sqrt n + 1

/-- `StationPlacementRL._create_placement_from_arm`.  The stream
`rand : ℕ → ℚ × ℚ` supplies, for station index `i`, the pair of values the
Python code draws via `random.uniform` in the random branch; the strategic
and grid branches never consult it, mirroring the source, whose grid branch
recomputes the deterministic grid coordinates with no jitter. -/
def create_placement_from_arm (cfg : PlacementConfig) (arm : Arm)
    (rand : ℕ → ℚ × ℚ) : List Station :=
  if arm.type = "strategic" then
    (cfg.demand_centers.take cfg.num_stations).mapIdx fun i c =>
      { station_id := stationIdStr i, lat := c.lat, lon := c.lon,
        name := c.name, type := "strategic" }
  else if arm.type = "grid" then
    let grid_size : ℕ := ceilSqrt cfg.num_stations
    let lat_range : ℚ := cfg.city_bounds.max_lat - cfg.city_bounds.min_lat
    let lon_range : ℚ := cfg.city_bounds.max_lon - cfg.city_bounds.min_lon
    (List.range cfg.num_stations).map fun i =>
      let row : ℕ := i / grid_size
      let col : ℕ := i % grid_size
      { station_id := stationIdStr i
        lat := cfg.city_bounds.min_lat + ((row : ℚ) / (grid_size : ℚ)) * lat_range
        lon := cfg.city_bounds.min_lon + ((col : ℚ) / (grid_size : ℚ)) * lon_range
        name := "Grid Station " ++ toString (i + 1)
        type := "grid" }
  else
    (List.range cfg.num_stations).map fun i =>
      { station_id := stationIdStr i
        lat := (rand i).1
        lon := (rand i).2
        name := "Random Station " ++ toString (i + 1)
        type := "random" }

/-- A strategic arm as generated by `generate_candidate_placements`
(Strategy 1, index 0, City Center). -/
def strategicArm0 : Arm :=
  { id := "strategic_0", lat := 20.2961, lon := 85.8245,
    type := "strategic", name := "City Center" }

/-- C1 amended: a materialised placement has exactly `num_stations`
station records for grid- and random-kind arms, but only
`min(num_stations, number of demand centers)` records for a
strategic-kind arm (the source iterates `demand_centers[:num_stations]`). -/
theorem create_placement_length (cfg : PlacementConfig) (arm : Arm)
    (rand : ℕ → ℚ × ℚ) :
    (create_placement_from_arm cfg arm rand).length =
      if arm.type = "strategic" then
        min cfg.num_stations cfg.demand_centers.length
      else cfg.num_stations := by
  unfold create_placement_from_arm
  by_cases hs : arm.type = "strategic"
  · simp [hs]
  · by_cases hg : arm.type = "grid" <;> simp [hs, hg]

/-- The inner minimum-distance loop shared by `calculate_reward` and
`_calculate_avg_distance_to_demand`: `min_dist = inf` followed by
`min_dist = min(min_dist, dist)` over the stations.  For a nonempty
station list this equals the fold below; the empty case (where Python
would keep `inf`) is modelled by the junk value `0` and is never reached
by the verified properties, which all restrict to nonempty placements. -/
def minDistToStations (d : ℚ → ℚ → ℚ → ℚ → ℚ) (clat clon : ℚ) :
    List Station → ℚ
  | [] => 0
  | s :: rest =>
      rest.foldl (fun m t => min m (d clat clon t.lat t.lon))
        (d clat clon s.lat s.lon)

/-- The `avg_distance` accumulation inside `calculate_reward`:
`total_distance += min_dist * center['weight']`, divided by the number of
demand centers. -/
def avg_distance_weighted (d : ℚ → ℚ → ℚ → ℚ → ℚ) (cfg : PlacementConfig)
    (placement : List Station) : ℚ :=
  (cfg.demand_centers.map fun c =>
      minDistToStations d c.lat c.lon placement * c.weight).sum
    / (cfg.demand_centers.length : ℚ)

/-- `StationPlacementRL._calculate_coverage`: the fraction of demand
centers with at least one station within 2 km (inner loop with `break`,
i.e. an existential over the stations). -/
def calculate_coverage (d : ℚ → ℚ → ℚ → ℚ → ℚ) (cfg : PlacementConfig)
    (stations : List Station) : ℚ :=
  if stations = [] then 0
  else
    ((cfg.demand_centers.countP fun c =>
        stations.any fun s => d c.lat c.lon s.lat s.lon ≤ 2) : ℚ)
      / (cfg.demand_centers.length : ℚ)

/-- The `total_dist` accumulator of `_calculate_spread`: the sum of the
distances over all unordered pairs, via the `for i, s1` / `for s2 in
stations[i+1:]` nested loop. -/
def pair_dist_sum (d : ℚ → ℚ → ℚ → ℚ → ℚ) : List Station → ℚ
  | [] => 0
  | s :: rest =>
      (rest.map fun t => d s.lat s.lon t.lat t.lon).sum + pair_dist_sum d rest

/-- The `count` accumulator of `_calculate_spread` (number of unordered
pairs visited by the nested loop). -/
def pair_count : List Station → ℕ
  | [] => 0
  | _ :: rest => rest.length + pair_count rest

/-- `StationPlacementRL._calculate_spread`. -/
def calculate_spread (d : ℚ → ℚ → ℚ → ℚ → ℚ) (stations : List Station) : ℚ :=
  if stations.length < 2 then 0
  else
    let total := pair_dist_sum d stations
    let count := pair_count stations
    let avg := if 0 < count then total / (count : ℚ) else 0
    if avg < 1 then 0 else if avg > 5 then 1 else avg / 5

/-- `StationPlacementRL.calculate_reward`. -/
def calculate_reward (d : ℚ → ℚ → ℚ → ℚ → ℚ) (cfg : PlacementConfig)
    (placement : List Station) : ℚ :=
  if placement = [] then -1000
  else
    let distance_score := -(avg_distance_weighted d cfg placement) * 10
    let coverage_score := calculate_coverage d cfg placement * 100
    let spread_score := calculate_spread d placement * 50
    distance_score + coverage_score + spread_score

/-- `StationPlacementRL._calculate_avg_distance_to_demand`, used only by
`save_results`: same minimum-distance loop as the reward function but with
`total += min_dist` — no weight factor. -/
def avg_distance_to_demand (d : ℚ → ℚ → ℚ → ℚ → ℚ) (cfg : PlacementConfig)
    (stations : List Station) : ℚ :=
  (cfg.demand_centers.map fun c =>
      minDistToStations d c.lat c.lon stations).sum
    / (cfg.demand_centers.length : ℚ)

/-- The derived metrics block of the record written by
`StationPlacementRL.save_results`. -/
structure RunMetrics where
  coverage : ℚ
  avg_distance : ℚ
  spread : ℚ
  deriving DecidableEq, Repr

/-- The `metrics` field computed inside `save_results`. -/
def save_results_metrics (d : ℚ → ℚ → ℚ → ℚ → ℚ) (cfg : PlacementConfig)
    (placement : List Station) : RunMetrics :=
  { coverage := calculate_coverage d cfg placement
    avg_distance := avg_distance_to_demand d cfg placement
    spread := calculate_spread d placement }

/-- Specification-side reading of the per-center minimum: the minimum, over
the stations of the placement, of the distance from the center — phrased
with `List.min?` rather than the source's running-minimum loop. -/
def spec_min_distance (d : ℚ → ℚ → ℚ → ℚ → ℚ) (c : DemandCenter)
    (p : List Station) : ℚ :=
  ((p.map fun s => d c.lat c.lon s.lat s.lon).min?).getD 0

/-- Specification-side `avg_distance`: the sum over demand centers of
(minimum distance from that center to any station, times the center's
weight), divided by the number of demand centers. -/
def spec_avg_distance (d : ℚ → ℚ → ℚ → ℚ → ℚ) (cfg : PlacementConfig)
    (p : List Station) : ℚ :=
  (cfg.demand_centers.map fun c => spec_min_distance d c p * c.weight).sum
    / (cfg.demand_centers.length : ℚ)

/-- Specification-side `coverage`: the fraction of demand centers having
at least one station within 2.0 km, phrased with an existential. -/
def spec_coverage (d : ℚ → ℚ → ℚ → ℚ → ℚ) (cfg : PlacementConfig)
    (p : List Station) : ℚ :=
  ((cfg.demand_centers.filter fun c =>
      decide (∃ s ∈ p, d c.lat c.lon s.lat s.lon ≤ 2)).length : ℚ)
    / (cfg.demand_centers.length : ℚ)

theorem minDistToStations_eq_spec (d : ℚ → ℚ → ℚ → ℚ → ℚ)
    (clat clon : ℚ) (s : Station) (rest : List Station) :
    minDistToStations d clat clon (s :: rest) =
      (((s :: rest).map fun t => d clat clon t.lat t.lon).min?).getD 0 := by
  simp only [minDistToStations, List.map_cons, List.min?_cons',
    Option.getD_some, List.foldl_map]

theorem any_le_eq_decide_exists (d : ℚ → ℚ → ℚ → ℚ → ℚ)
    (clat clon : ℚ) (stations : List Station) :
    (stations.any fun s => d clat clon s.lat s.lon ≤ 2)
      = decide (∃ s ∈ stations, d clat clon s.lat s.lon ≤ 2) := by
  induction stations with
  | nil => simp
  | cons s rest ih => simp [List.any_cons, ih]

theorem pair_count_eq_choose (l : List Station) :
    pair_count l = l.length.choose 2 := by
  induction l with
  | nil => rfl
  | cons s rest ih =>
      simp [pair_count, ih, List.length_cons, Nat.choose_succ_succ,
        Nat.choose_one_right, Nat.add_comm]

theorem pair_count_pos (l : List Station) (h : 2 ≤ l.length) :
    0 < pair_count l := by
  rw [pair_count_eq_choose]
  exact Nat.choose_pos h

/-- C7: `calculate_reward` applied to an empty placement returns exactly
`-1000.0` as an ordinary return value, for every distance function,
demand-center list and bounding box. -/
theorem reward_empty_sentinel (d : ℚ → ℚ → ℚ → ℚ → ℚ)
    (cfg : PlacementConfig) : calculate_reward d cfg [] = -1000 := by
  simp [calculate_reward]

/-- C8: the spread component is `0` for fewer than 2 stations; otherwise,
with `m` the mean pairwise inter-station distance (the pair sum divided by
the number `choose 2` of unordered pairs), it is `0` when `m < 1`, `1`
when `m > 5`, and `m / 5` in between. -/
theorem spread_piecewise (d : ℚ → ℚ → ℚ → ℚ → ℚ) (stations : List Station) :
    calculate_spread d stations =
      if stations.length < 2 then 0
      else
        let m := pair_dist_sum d stations / ((stations.length.choose 2 : ℕ) : ℚ)
        if m < 1 then 0 else if m > 5 then 1 else m / 5 := by
  unfold calculate_spread
  by_cases h : stations.length < 2
  · simp [h]
  · have h2 : 2 ≤ stations.length := Nat.le_of_not_lt h
    have hpos : 0 < stations.length.choose 2 := Nat.choose_pos h2
    simp only [h, if_false, pair_count_eq_choose, hpos, if_true]

/-- C6: for every nonempty placement the reward is
`(-avg_distance * 10) + (coverage * 100) + (spread * 50)`, where
`avg_distance` is the weighted mean (specification phrasing, via
`List.min?`) and `coverage` the fraction of demand centers with a station
within 2.0 km (specification phrasing, via an existential).  Proved for
every distance function, in particular the Haversine distance. -/
theorem reward_formula (d : ℚ → ℚ → ℚ → ℚ → ℚ) (cfg : PlacementConfig)
    (p : List Station) (hp : p ≠ []) :
    calculate_reward d cfg p =
      -(spec_avg_distance d cfg p) * 10
        + spec_coverage d cfg p * 100
        + calculate_spread d p * 50 := by
  obtain ⟨s, rest, rfl⟩ := List.exists_cons_of_ne_nil hp
  unfold calculate_reward avg_distance_weighted calculate_coverage
    spec_avg_distance spec_coverage spec_min_distance
  simp only [List.countP_eq_length_filter, minDistToStations_eq_spec,
    any_le_eq_decide_exists]
  simp

/-- A grid arm as generated by `generate_candidate_placements`
(Strategy 2, index 0; the stored coordinates carry generation-time
jitter, here a sample value, and are ignored by materialisation). -/
def gridArm0 : Arm :=
  { id := "grid_0", lat := 20.205, lon := 85.7, type := "grid",
    name := "Grid Station 1" }

/-- A concrete station record used as a test placement. -/
def stationA : Station :=
  { station_id := "ST01", lat := 20.25, lon := 85.80,
    name := "Test Station", type := "random" }

/-- A concrete stand-in for the abstract distance function: every pair of
points at distance 1 km. -/
def constDist : ℚ → ℚ → ℚ → ℚ → ℚ := fun _ _ _ _ => 1

theorem create_grid_rand_irrelevant (cfg : PlacementConfig) (arm : Arm)
    (h : arm.type = "grid") (r1 r2 : ℕ → ℚ × ℚ) :
    create_placement_from_arm cfg arm r1 = create_placement_from_arm cfg arm r2 := by
  have hs : ¬ arm.type = "strategic" := by rw [h]; decide
  unfold create_placement_from_arm
  simp [hs, h]

/-- C1 counterexample: materialising from the strategic arm of the default
configuration (5 demand centers, 25 stations) yields 5 station records,
not 25. -/
theorem strategic_placement_not_25 :
    (create_placement_from_arm defaultConfig strategicArm0 (fun _ => (0, 0))).length = 5 ∧
    (create_placement_from_arm defaultConfig strategicArm0 (fun _ => (0, 0))).length ≠ 25 := by
  constructor <;> decide

/-- C4 counterexample: there is no pair of materialisation calls on a
grid-kind arm of the default configuration that produce different
coordinate sequences — grid materialisation is deterministic. -/
theorem grid_materialisation_never_differs :
    ¬ ∃ (a : Arm) (r1 r2 : ℕ → ℚ × ℚ), a.type = "grid" ∧
        create_placement_from_arm defaultConfig a r1
          ≠ create_placement_from_arm defaultConfig a r2 := by
  rintro ⟨a, r1, r2, h, hne⟩
  exact hne (create_grid_rand_irrelevant defaultConfig a h r1 r2)

/-- C4 amended: materialising a placement from a grid-kind arm is
deterministic — the random stream is never consulted, so any two calls on
the same grid arm produce identical coordinate sequences (the random
jitter exists only at candidate-generation time; only random-kind arms
resample per materialisation). -/
theorem grid_placement_deterministic (cfg : PlacementConfig) (arm : Arm)
    (r1 r2 : ℕ → ℚ × ℚ) (h : arm.type = "grid") :
    create_placement_from_arm cfg arm r1 = create_placement_from_arm cfg arm r2 :=
  create_grid_rand_irrelevant cfg arm h r1 r2

/-- Witness for the amended C4 at a concrete grid arm and two distinct
random streams. -/
theorem grid_placement_deterministic_witness :
    create_placement_from_arm defaultConfig gridArm0 (fun _ => (0, 0))
      = create_placement_from_arm defaultConfig gridArm0 (fun n => ((n : ℚ), 1)) :=
  grid_placement_deterministic defaultConfig gridArm0 _ _ rfl

theorem sum_map_mul_weight_sub (l : List DemandCenter) (f : DemandCenter → ℚ) :
    (l.map fun c => f c * (c.weight - 1)).sum
      = (l.map fun c => f c * c.weight).sum - (l.map f).sum := by
  induction l with
  | nil => simp
  | cons c rest ih =>
      simp only [List.map_cons, List.sum_cons, ih]
      ring

/-- C2 amended: of the three exported metrics, coverage and spread are
exactly the reward function's components recomputed on the same placement;
the exported avg_distance omits the demand-center weights, and its
discrepancy from the reward's weighted mean is the weight-defect term
`(sum of min-distance * (weight - 1)) / #centers`. -/
theorem saved_metrics_vs_reward (d : ℚ → ℚ → ℚ → ℚ → ℚ)
    (cfg : PlacementConfig) (p : List Station) :
    (save_results_metrics d cfg p).coverage = calculate_coverage d cfg p ∧
    (save_results_metrics d cfg p).spread = calculate_spread d p ∧
    avg_distance_weighted d cfg p - (save_results_metrics d cfg p).avg_distance
      = (cfg.demand_centers.map fun c =>
          minDistToStations d c.lat c.lon p * (c.weight - 1)).sum
        / (cfg.demand_centers.length : ℚ) := by
  refine ⟨rfl, rfl, ?_⟩
  simp only [save_results_metrics, avg_distance_weighted,
    avg_distance_to_demand, sum_map_mul_weight_sub, sub_div]

/-- C2 counterexample: with the unit distance function and a one-station
placement under the default demand centers (weights 1, 0.9, 0.8, 0.7,
0.6), the exported avg_distance (1) differs from the reward function's
weighted mean (0.8). -/
theorem saved_avg_distance_diverges :
    (save_results_metrics constDist defaultConfig [stationA]).avg_distance
      ≠ avg_distance_weighted constDist defaultConfig [stationA] := by
  norm_num [save_results_metrics, avg_distance_to_demand,
    avg_distance_weighted, minDistToStations, defaultConfig,
    defaultDemandCenters, constDist, stationA]

/-- Witness for C6 at a concrete distance function and placement. -/
theorem reward_formula_witness :
    calculate_reward constDist defaultConfig [stationA]
      = -(spec_avg_distance constDist defaultConfig [stationA]) * 10
        + spec_coverage constDist defaultConfig [stationA] * 100
        + calculate_spread constDist [stationA] * 50 :=
  reward_formula constDist defaultConfig [stationA] (by decide)

/-- The state of a `UCB_Bandit`: exploration parameter `c`,
`defaultdict(int)` pull counts, `defaultdict(list)` reward histories, and
the total-pulls counter.  The defaultdicts are modelled as total functions
from arm id, defaulting to `0` / `[]`. -/
structure UCBState where
  c : ℚ
  counts : String → ℕ
  rewards : String → List ℚ
  total_pulls : ℕ

/-- `UCB_Bandit.__init__`. -/
def UCB_init (c : ℚ) : UCBState :=
  { c := c, counts := fun _ => 0, rewards := fun _ => [], total_pulls := 0 }

/-- `UCB_Bandit.update`: increment the arm's pull count, append the reward
to its history, increment total pulls. -/
def UCB_update (b : UCBState) (arm : Arm) (reward : ℚ) : UCBState :=
  { b with
    counts := fun i => if i = arm.id then b.counts i + 1 else b.counts i
    rewards := fun i => if i = arm.id then b.rewards i ++ [reward] else b.rewards i
    total_pulls := b.total_pulls + 1 }

/-- `np.mean` on a reward history. -/
def listMean (l : List ℚ) : ℚ := l.sum / (l.length : ℚ)

/-- `UCB_Bandit.select_arm`.  `sq` and `lg` model `math.sqrt` and
`math.log` (transcendental, abstracted like the distance function);
`choice` models the `random.choice` draw as an index into the untried-arm
list.  `max(ucb_values, key=ucb_values.get)` keeps the first key attaining
the maximum in insertion order (strict improvement), then
`next(arm for arm in arms ...)` retrieves the first arm with that id. -/
def UCB_select (sq lg : ℚ → ℚ) (b : UCBState) (arms : List Arm)
    (choice : ℕ) : Option Arm :=
  if arms = [] then none
  else
    let untried := arms.filter fun a => b.counts a.id = 0
    if untried = [] then
      let ucbValue : Arm → ℚ := fun a =>
        (if b.rewards a.id = [] then 0 else listMean (b.rewards a.id))
          + b.c * sq (lg (b.total_pulls : ℚ) / (b.counts a.id : ℚ))
      let best := arms.foldl
        (fun acc a =>
          match acc with
          | none => some (a, ucbValue a)
          | some q => if ucbValue a > q.2 then some (a, ucbValue a) else some q)
        none
      match best with
      | none => none
      | some q => arms.find? fun a => a.id = q.1.id
    else untried[choice % untried.length]?

/-- The state of an `EpsilonGreedy_Bandit`. -/
structure EpsilonGreedyState where
  epsilon : ℚ
  initial_epsilon : ℚ
  epsilon_decay : ℚ
  rewards : String → List ℚ
  counts : String → ℕ

/-- `EpsilonGreedy_Bandit.__init__`. -/
def EpsilonGreedy_init (eps dec : ℚ) : EpsilonGreedyState :=
  { epsilon := eps, initial_epsilon := eps, epsilon_decay := dec,
    rewards := fun _ => [], counts := fun _ => 0 }

/-- `EpsilonGreedy_Bandit.select_arm`.  `randVal` models the
`random.random()` draw, `choiceE`/`choiceF` the indices drawn by the two
`random.choice` calls (explore branch / empty-history fallback). -/
def EpsilonGreedy_select (b : EpsilonGreedyState) (arms : List Arm)
    (randVal : ℚ) (choiceE choiceF : ℕ) : Option Arm :=
  if arms = [] then none
  else if randVal < b.epsilon then arms[choiceE % arms.length]?
  else
    let best := arms.foldl
      (fun acc a =>
        if b.rewards a.id = [] then acc
        else
          match acc with
          | none => some (a, listMean (b.rewards a.id))
          | some q =>
              if listMean (b.rewards a.id) > q.2 then
                some (a, listMean (b.rewards a.id))
              else some q)
      none
    match best with
    | none => arms[choiceF % arms.length]?
    | some q => some q.1

/-- `EpsilonGreedy_Bandit.decay_epsilon`:
`epsilon = max(0.1, epsilon * epsilon_decay)`. -/
def decay_epsilon (b : EpsilonGreedyState) : EpsilonGreedyState :=
  { b with epsilon := max 0.1 (b.epsilon * b.epsilon_decay) }

/-- C3 counterexample: on an empty arm pool both policies return the
no-arm value `none` as an ordinary result — a silent no-op, not a defined
error. -/
theorem select_empty_pool_counterexample :
    UCB_select id id (UCB_init 2) [] 0 = none ∧
    EpsilonGreedy_select (EpsilonGreedy_init 0.3 0.95) [] 0 0 0 = none := by
  constructor <;> rfl

/-- C3 amended: for both bandit policies, selection on an empty arm pool
silently returns no arm (`None`) for every bandit state and every random
draw; no error is raised by the selection itself. -/
theorem select_empty_pool_returns_none (sq lg : ℚ → ℚ) (b1 : UCBState)
    (b2 : EpsilonGreedyState) (choice choiceE choiceF : ℕ) (randVal : ℚ) :
    UCB_select sq lg b1 [] choice = none ∧
    EpsilonGreedy_select b2 [] randVal choiceE choiceF = none := by
  constructor <;> simp [UCB_select, EpsilonGreedy_select]

theorem decay_iter_keeps_factor (b : EpsilonGreedyState) (n : ℕ) :
    (decay_epsilon^[n] b).epsilon_decay = b.epsilon_decay := by
  induction n with
  | zero => rfl
  | succ n ih =>
      rw [Function.iterate_succ_apply']
      simp [decay_epsilon, ih]

/-- C9 counterexample: the claimed closed form fails for a decay factor
above 1 (initial epsilon 0.01, factor 2, two calls: the code yields 0.2,
the formula 0.1) and for zero calls with an initial epsilon below the
floor (0.05 ≠ max(0.1, 0.05)). -/
theorem epsilon_decay_formula_fails :
    (decay_epsilon^[2] (EpsilonGreedy_init (1/100) 2)).epsilon
        ≠ max 0.1 ((1/100) * 2 ^ 2) ∧
    (decay_epsilon^[0] (EpsilonGreedy_init (1/20) (19/20))).epsilon
        ≠ max 0.1 ((1/20) * (19/20) ^ 0) := by
  constructor <;>
    norm_num [Function.iterate_succ_apply', decay_epsilon,
      EpsilonGreedy_init, max_def]

/-- C9 amended: for every initial epsilon, every decay factor in [0, 1]
(the default is 0.95) and every n ≥ 1, after n decay calls epsilon equals
`max(0.1, initial_epsilon * decay_factor^n)`; in particular epsilon never
goes below the 0.1 floor once at least one decay call has happened. -/
theorem epsilon_decay_formula (e0 dec : ℚ) (n : ℕ) (h0 : 0 ≤ dec)
    (h1 : dec ≤ 1) (hn : 1 ≤ n) :
    (decay_epsilon^[n] (EpsilonGreedy_init e0 dec)).epsilon
      = max 0.1 (e0 * dec ^ n) := by
  induction n with
  | zero => exact absurd hn (by norm_num)
  | succ n ih =>
      rcases Nat.eq_zero_or_pos n with hz | hpos
      · subst hz
        simp [decay_epsilon, EpsilonGreedy_init]
      · have hdec : (decay_epsilon^[n] (EpsilonGreedy_init e0 dec)).epsilon_decay
            = dec := decay_iter_keeps_factor _ n
        rw [Function.iterate_succ_apply', decay_epsilon, hdec, ih hpos]
        have hmul : max (0.1 : ℚ) (e0 * dec ^ n) * dec
            = max (0.1 * dec) (e0 * dec ^ (n + 1)) := by
          rw [max_mul_of_nonneg _ _ h0]
          ring_nf
        rw [hmul, ← max_assoc]
        have hfloor : max (0.1 : ℚ) (0.1 * dec) = 0.1 :=
          max_eq_left (by nlinarith)
        rw [hfloor]

/-- Witness for the amended C9 at the default parameters
(epsilon 0.3, decay 0.95, two decay calls). -/
theorem epsilon_decay_formula_witness :
    (decay_epsilon^[2] (EpsilonGreedy_init 0.3 0.95)).epsilon
      = max 0.1 (0.3 * 0.95 ^ 2) :=
  epsilon_decay_formula 0.3 0.95 2 (by norm_num) (by norm_num) (by norm_num)

/-- The state reached after a sequence of `{arm, reward}` updates applied
to a freshly constructed UCB bandit (exploration parameter 2.0, as in
`StationPlacementRL.__init__`). -/
def UCB_run_updates (us : List (Arm × ℚ)) : UCBState :=
  us.foldl (fun b p => UCB_update b p.1 p.2) (UCB_init 2)

theorem counts_foldl_updates (us : List (Arm × ℚ)) (b : UCBState)
    (i : String) :
    ((us.foldl (fun b p => UCB_update b p.1 p.2) b).counts i)
      = b.counts i + ((us.map fun p => p.1.id).count i) := by
  induction us generalizing b with
  | nil => simp
  | cons u rest ih =>
      rw [List.foldl_cons, ih]
      simp only [UCB_update, List.map_cons, List.count_cons, beq_iff_eq]
      by_cases h : i = u.1.id
      · subst h
        simp
        omega
      · simp [h, Ne.symm h]

theorem rewards_len_foldl_updates (us : List (Arm × ℚ)) (b : UCBState)
    (i : String) :
    ((us.foldl (fun b p => UCB_update b p.1 p.2) b).rewards i).length
      = (b.rewards i).length + ((us.map fun p => p.1.id).count i) := by
  induction us generalizing b with
  | nil => simp
  | cons u rest ih =>
      rw [List.foldl_cons, ih]
      simp only [UCB_update, List.map_cons, List.count_cons, beq_iff_eq]
      by_cases h : i = u.1.id
      · subst h
        simp
        omega
      · simp [h, Ne.symm h]

theorem total_foldl_updates (us : List (Arm × ℚ)) (b : UCBState) :
    (us.foldl (fun b p => UCB_update b p.1 p.2) b).total_pulls
      = b.total_pulls + us.length := by
  induction us generalizing b with
  | nil => simp
  | cons u rest ih =>
      rw [List.foldl_cons, ih]
      simp only [UCB_update, List.length_cons]
      omega

/-- C10: after any sequence of `{arm, reward}` updates on a freshly
constructed UCB bandit, every arm's pull count equals the length of that
arm's reward history, and `total_pulls` equals the sum of the per-arm pull
counts (summed over the distinct arm ids that were updated; all other ids
have count 0).  The empty sequence gives the post-construction state, and
the statement for every sequence gives preservation by every update. -/
theorem ucb_update_invariant (us : List (Arm × ℚ)) :
    (∀ i, (UCB_run_updates us).counts i
        = ((UCB_run_updates us).rewards i).length) ∧
    (UCB_run_updates us).total_pulls
      = (((us.map fun p => p.1.id).dedup).map
          (UCB_run_updates us).counts).sum := by
  constructor
  · intro i
    unfold UCB_run_updates
    rw [counts_foldl_updates, rewards_len_foldl_updates]
    simp [UCB_init]
  · unfold UCB_run_updates
    rw [total_foldl_updates]
    have hmap : (((us.map fun p => p.1.id).dedup).map
          (us.foldl (fun b p => UCB_update b p.1 p.2) (UCB_init 2)).counts)
        = (((us.map fun p => p.1.id).dedup).map
            fun i => ((us.map fun p => p.1.id).count i)) := by
      refine List.map_congr_left fun i _ => ?_
      rw [counts_foldl_updates]
      simp [UCB_init]
    rw [hmap, List.sum_map_count_dedup_eq_length, List.length_map]
    simp [UCB_init]

/-- The episode loop of `optimize_placement` restricted to the parts that
touch the UCB bandit: starting from a fresh bandit, each step selects an
arm from the fixed candidate pool and, when selection returns an arm,
updates the bandit with the observed reward (`rews` supplies each
episode's reward, `choices` each episode's random index).  The second
component records the arms selected so far, in order. -/
def UCB_explore_run (sq lg : ℚ → ℚ) (arms : List Arm) (choices : ℕ → ℕ)
    (rews : ℕ → ℚ) : ℕ → UCBState × List Arm
  | 0 => (UCB_init 2, [])
  | n + 1 =>
      let prev := UCB_explore_run sq lg arms choices rews n
      match UCB_select sq lg prev.1 arms (choices n) with
      | none => prev
      | some a => (UCB_update prev.1 a (rews n), prev.2 ++ [a])

theorem UCB_select_untried (sq lg : ℚ → ℚ) (b : UCBState) (arms : List Arm)
    (choice : ℕ) (hne : arms ≠ [])
    (hu : arms.filter (fun a => b.counts a.id = 0) ≠ []) :
    UCB_select sq lg b arms choice
      = (arms.filter fun a => b.counts a.id = 0)[choice %
          (arms.filter fun a => b.counts a.id = 0).length]? := by
  simp only [UCB_select, if_neg hne, if_neg hu]

theorem untried_ne_nil (arms : List Arm) (hnd : (arms.map Arm.id).Nodup)
    (sel : List Arm) (b : UCBState) (hlen : sel.length < arms.length)
    (hcounts : ∀ i, b.counts i = ((sel.map Arm.id).count i)) :
    arms.filter (fun a => b.counts a.id = 0) ≠ [] := by
  intro hfil
  have hall : ∀ a ∈ arms, a.id ∈ sel.map Arm.id := by
    intro a ha
    have hnp := List.filter_eq_nil_iff.mp hfil a ha
    have hcz : b.counts a.id ≠ 0 := by simpa using hnp
    rw [hcounts] at hcz
    exact List.count_pos_iff.mp (Nat.pos_of_ne_zero hcz)
  have hsub : (arms.map Arm.id) ⊆ sel.map Arm.id := by
    intro i hi
    obtain ⟨a, ha, rfl⟩ := List.mem_map.mp hi
    exact hall a ha
  have hle := (List.subperm_of_subset hnd hsub).length_le
  simp only [List.length_map] at hle
  omega

theorem ucb_explore_inv (sq lg : ℚ → ℚ) (arms : List Arm)
    (hnd : (arms.map Arm.id).Nodup) (choices : ℕ → ℕ) (rews : ℕ → ℚ) :
    ∀ j, j ≤ arms.length →
      ((UCB_explore_run sq lg arms choices rews j).2.length = j ∧
       (∀ a ∈ (UCB_explore_run sq lg arms choices rews j).2, a ∈ arms) ∧
       ((UCB_explore_run sq lg arms choices rews j).2.map Arm.id).Nodup ∧
       ∀ i, (UCB_explore_run sq lg arms choices rews j).1.counts i
           = (((UCB_explore_run sq lg arms choices rews j).2.map Arm.id).count i)) := by
  intro j
  induction j with
  | zero =>
      intro _
      refine ⟨rfl, ?_, ?_, ?_⟩ <;> simp [UCB_explore_run, UCB_init]
  | succ j ih =>
      intro hj1
      have hj : j ≤ arms.length := Nat.le_of_succ_le hj1
      obtain ⟨hlen, hmem, hndsel, hcounts⟩ := ih hj
      set prev := UCB_explore_run sq lg arms choices rews j with hprev
      have hlt : prev.2.length < arms.length := by omega
      have hne : arms ≠ [] := by
        intro h
        rw [h] at hlt
        simp at hlt
      have hu : arms.filter (fun a => prev.1.counts a.id = 0) ≠ [] :=
        untried_ne_nil arms hnd prev.2 prev.1 hlt hcounts
      set untried := arms.filter (fun a => prev.1.counts a.id = 0) with hudef
      have hulen : 0 < untried.length := List.length_pos.mpr hu
      have hidx : choices j % untried.length < untried.length :=
        Nat.mod_lt _ hulen
      have hselect : UCB_select sq lg prev.1 arms (choices j)
          = some (untried.get ⟨choices j % untried.length, hidx⟩) := by
        rw [UCB_select_untried sq lg prev.1 arms (choices j) hne hu]
        rw [← hudef]
        rw [List.getElem?_eq_getElem hidx]
        rfl
      set a := untried.get ⟨choices j % untried.length, hidx⟩ with hadef
      have hau : a ∈ untried := List.get_mem untried _ hidx
      have haarms : a ∈ arms := (List.mem_filter.mp hau).1
      have hacount : prev.1.counts a.id = 0 := by
        have h2 := (List.mem_filter.mp hau).2
        simpa using h2
      have hanotin : a.id ∉ prev.2.map Arm.id := by
        rw [hcounts] at hacount
        exact List.count_eq_zero.mp hacount
      have hrun : UCB_explore_run sq lg arms choices rews (j + 1)
          = (UCB_update prev.1 a (rews j), prev.2 ++ [a]) := by
        simp only [UCB_explore_run]
        rw [← hprev, hselect]
      rw [hrun]
      refine ⟨?_, ?_, ?_, ?_⟩
      · simp [hlen]
      · intro x hx
        rcases List.mem_append.mp hx with h | h
        · exact hmem x h
        · rw [List.mem_singleton.mp h]
          exact haarms
      · simp only [List.map_append, List.map_cons, List.map_nil]
        rw [List.nodup_append]
        refine ⟨hndsel, List.nodup_singleton _, ?_⟩
        intro x hx hx1
        rw [List.mem_singleton.mp hx1] at hx
        exact hanotin hx
      · intro i
        simp only [UCB_update, List.map_append, List.map_cons, List.map_nil,
          List.count_append, List.count_cons, List.count_nil, beq_iff_eq]
        by_cases h : i = a.id
        · subst h
          simp [hcounts]
        · simp [h, Ne.symm h, hcounts]

theorem ucb_explore_param_indep (sq lg sq' lg' : ℚ → ℚ) (arms : List Arm)
    (hnd : (arms.map Arm.id).Nodup) (choices : ℕ → ℕ) (rews : ℕ → ℚ) :
    ∀ j, j ≤ arms.length →
      UCB_explore_run sq lg arms choices rews j
        = UCB_explore_run sq' lg' arms choices rews j := by
  intro j
  induction j with
  | zero => intro _; rfl
  | succ j ih =>
      intro hj1
      have hj : j ≤ arms.length := Nat.le_of_succ_le hj1
      have heq := ih hj
      obtain ⟨hlen, hmem, hndsel, hcounts⟩ :=
        ucb_explore_inv sq lg arms hnd choices rews j hj
      set prev := UCB_explore_run sq lg arms choices rews j with hprev
      have hlt : prev.2.length < arms.length := by omega
      have hne : arms ≠ [] := by
        intro h
        rw [h] at hlt
        simp at hlt
      have hu : arms.filter (fun a => prev.1.counts a.id = 0) ≠ [] :=
        untried_ne_nil arms hnd prev.2 prev.1 hlt hcounts
      have hsel : UCB_select sq lg prev.1 arms (choices j)
          = UCB_select sq' lg' prev.1 arms (choices j) := by
        rw [UCB_select_untried sq lg prev.1 arms (choices j) hne hu,
          UCB_select_untried sq' lg' prev.1 arms (choices j) hne hu]
      simp only [UCB_explore_run]
      rw [← heq, ← hprev, ← hsel]

/-- C5: over any pool of arms with pairwise-distinct ids, starting from a
fresh UCB bandit and updating after each selection, the first
`arms.length` selections succeed and return each arm exactly once (the
selected list is a permutation of the pool); moreover the entire run is
independent of the `sqrt`/`log` functions used by the UCB value, i.e. no
UCB-value comparison influences any of these selections. -/
theorem ucb_initial_exploration (arms : List Arm)
    (hnd : (arms.map Arm.id).Nodup) (sq lg sq' lg' : ℚ → ℚ)
    (choices : ℕ → ℕ) (rews : ℕ → ℚ) :
    ((UCB_explore_run sq lg arms choices rews arms.length).2).Perm arms ∧
    UCB_explore_run sq lg arms choices rews arms.length
      = UCB_explore_run sq' lg' arms choices rews arms.length := by
  obtain ⟨hlen, hmem, hndsel, hcounts⟩ :=
    ucb_explore_inv sq lg arms hnd choices rews arms.length le_rfl
  constructor
  · have hndsel' : (UCB_explore_run sq lg arms choices rews arms.length).2.Nodup :=
      List.Nodup.of_map _ hndsel
    have hsub : (UCB_explore_run sq lg arms choices rews arms.length).2 ⊆ arms :=
      fun x hx => hmem x hx
    exact (List.subperm_of_subset hndsel' hsub).perm_of_length_le
      (le_of_eq hlen.symm)
  · exact ucb_explore_param_indep sq lg sq' lg' arms hnd choices rews
      arms.length le_rfl

/-- A random arm as generated by `generate_candidate_placements`
(Strategy 3, index 0; sample coordinates). -/
def randomArm0 : Arm :=
  { id := "random_0", lat := 20.3, lon := 85.8, type := "random",
    name := "Random Station 1" }

/-- A concrete three-arm pool with pairwise-distinct ids. -/
def armsW : List Arm := [strategicArm0, gridArm0, randomArm0]

/-- Witness for C5: the concrete three-arm pool, constant choice and
reward streams, and two different sqrt/log instantiations. -/
theorem ucb_initial_exploration_witness :
    ((UCB_explore_run id id armsW (fun _ => 0) (fun _ => 1) armsW.length).2).Perm armsW ∧
    UCB_explore_run id id armsW (fun _ => 0) (fun _ => 1) armsW.length
      = UCB_explore_run (fun q => q + 1) (fun q => q) armsW (fun _ => 0)
          (fun _ => 1) armsW.length :=
  ucb_initial_exploration armsW (by decide) id id (fun q => q + 1)
    (fun q => q) (fun _ => 0) (fun _ => 1)
